import Mathlib

/-!
Shallow embedding of the upload/allocation core of `server.js`
(ImageVideoUploadServer): chunk receiving, manifest bookkeeping, chunk
assembly with single-pass hashing, content-hash deduplication, and the
lock-directory serial allocator.  Filesystem directories are modelled as
association lists from entry name to content (or to mtime for the upload
directory); the SHA-256 accumulator is modelled by the exact byte stream
fed to it (the digest is a pure function of that stream, so equality of
streams is equality of digests).  JavaScript numbers that may be NaN are
modelled as `Option Int` with `none` for NaN.
-/

/-- File contents as a byte list. -/
abbrev Bytes := List Nat

/-- Kernel-reducible model of `String.prototype.startsWith`. -/
def jsStartsWith (s pre : String) : Bool :=
  pre.data.isPrefixOf s.data

/-- Kernel-reducible model of `String.prototype.slice(n)` on characters. -/
def jsDrop (s : String) (n : Nat) : String :=
  String.mk (s.data.drop n)

/-- ASCII lowering of one character (the lowercase mapping the server
applies to ASCII control suffixes and the `true` literal). -/
def lowerChar (c : Char) : Char :=
  if 65 ≤ c.toNat && c.toNat ≤ 90 then Char.ofNat (c.toNat + 32) else c

/-- Kernel-reducible model of `String.prototype.toLowerCase` (ASCII). -/
def jsToLower (s : String) : String :=
  String.mk (s.data.map lowerChar)

/-- Whitespace test for `String.prototype.trim`. -/
def wsChar (c : Char) : Bool :=
  c == ' ' || c == '\t' || c == '\n' || c == '\r'

/-- Kernel-reducible model of `String.prototype.trim`. -/
def jsTrim (s : String) : String :=
  String.mk ((((s.data.dropWhile wsChar).reverse).dropWhile wsChar).reverse)

/-- A JavaScript number that may be NaN (`none`). -/
abbrev JsNum := Option Int

/-- Association-list lookup by string key, first match wins
(models a filesystem directory or a JS `Map`). -/
def alookup {β : Type} : List (String × β) → String → Option β
  | [], _ => none
  | (k2, v) :: t, k => if k2 == k then some v else alookup t k

/-- Remove every entry with the given key (models `fs.unlink` / `Map.delete`). -/
def aremove {β : Type} (l : List (String × β)) (k : String) : List (String × β) :=
  l.filter (fun p => !(p.1 == k))

/-- Insert-or-overwrite an entry (models writing a file / `Map.set`). -/
def aset {β : Type} (l : List (String × β)) (k : String) (v : β) : List (String × β) :=
  (k, v) :: aremove l k

/-- Model of JS `parseInt(s, 10)`: leading whitespace skipped, optional
sign, then leading decimal digits; `none` (NaN) when no digit is found. -/
def parseIntJs (s : String) : JsNum :=
  let cs := (jsTrim s).toList
  let signAndRest : Bool × List Char :=
    match cs with
    | '-' :: r => (true, r)
    | '+' :: r => (false, r)
    | r => (false, r)
  let ds := signAndRest.2.takeWhile (fun c => c.isDigit)
  if ds.isEmpty then none
  else
    let v : Nat := ds.foldl (fun a c => a * 10 + (c.toNat - 48)) 0
    some (if signAndRest.1 then -(v : Int) else (v : Int))

/-- Rendering of a possibly-NaN number by a JS template literal. -/
def jsNumStr : JsNum → String
  | none => "NaN"
  | some k => toString k

/-- JS string truthiness for a nullable string variable. -/
def strTruthy : Option String → Bool
  | some s => !(s == "")
  | none => false

/-- Model of `users[key]` where a missing or empty full name is falsy:
the auth CSV maps AuthKey to FullName. -/
def jsUser (users : List (String × String)) (k : String) : Option String :=
  match alookup users k with
  | some fn => if fn == "" then none else some fn
  | none => none

/-- Model of `String.prototype.padStart(w, c)`. -/
def padStart (s : String) (w : Nat) (c : Char) : String :=
  if w ≤ s.length then s else String.mk (List.replicate (w - s.length) c) ++ s

/-- `serialTag` from server.js: `PREFIX-NNNN` with the serial zero-padded
to at least four digits. -/
def serialTag (pfx : String) (n : Nat) : String :=
  pfx ++ ("-") ++ padStart (toString n) 4 ('0')

/-- The extensionless base name `name_PREFIX-NNNN` built by `serialPaths`. -/
def serialBase (name pfx : String) (n : Nat) : String :=
  name ++ ("_") ++ serialTag pfx n

/-- The reservation lock directory name for a candidate serial. -/
def lockNameOf (name pfx : String) (n : Nat) : String :=
  serialBase name pfx n ++ (".lock")

/-- Model of `path.extname`: the suffix of the basename from its last dot;
empty when there is no dot or the only dot is the leading character. -/
def extname (s : String) : String :=
  let cs := s.data.foldl (fun acc c => if c == '/' then [] else acc ++ [c]) []
  let idxs := (List.range cs.length).filter (fun i => cs.getD i ' ' == '.')
  match idxs.getLast? with
  | none => ""
  | some 0 => ""
  | some i => String.mk (cs.drop i)

/-- The upload directory as a listing of entry names with mtimes
(final media files, `.lock` reservation dirs, legacy `.serial` files). -/
abbrev Dir := List (String × Nat)

/-- The entry names of a directory listing (model of `fs.readdir`). -/
def dirNames (d : Dir) : List String :=
  d.map (fun p => p.1)

/-- `isRealSerialUsed` from server.js: an entry equal to the base name, or
the base name followed by a dot and anything but the control suffixes
`lock` / `serial` (case-insensitive), marks the serial as taken. -/
def isRealSerialUsed (names : List String) (baseNoExt : String) : Bool :=
  names.any (fun nm =>
    nm == baseNoExt ||
      (jsStartsWith nm (baseNoExt ++ (".")) &&
        !(jsToLower (jsDrop nm (baseNoExt.length + 1)) == ("lock") ||
          jsToLower (jsDrop nm (baseNoExt.length + 1)) == ("serial"))))

/-- Result of `reserveSerialPath`: a reserved final path with its lock and
serial plus the directory after the call, or exhaustion of the probe
budget (the `Could not allocate unique serial` throw). -/
inductive ReserveRes where
  | ok (finalPath lockName : String) (n : Nat) (d : Dir)
  | exhausted (d : Dir)
deriving DecidableEq, Repr

/-- Bump the candidate-probe counter of a loop result. -/
def bumpProbe (r : ReserveRes × Nat) : ReserveRes × Nat :=
  (r.1, r.2 + 1)

/-- The directory after `tryRemoveStaleLock` from server.js: the lock is
removed only when its mtime is older than the TTL; a missing lock
(`stat` throwing) leaves the directory unchanged. -/
def staleSweep (ttl now : Nat) (d : Dir) (lockName : String) : Dir :=
  match alookup d lockName with
  | some mt => if ttl < now - mt then aremove d lockName else d
  | none => d

/-- The probe loop of `reserveSerialPath`, one fuel unit per candidate
serial.  Mirrors server.js: skip used serials; on `mkdir` hitting an
existing lock, remove it when stale (`tryRemoveStaleLock`) but advance to
the next candidate either way; after taking the lock re-check usage and
release on a race.  Also returns the number of candidates probed. -/
def reserveLoop (ttl now : Nat) (name pfx ext : String) :
    Nat → Nat → Dir → ReserveRes × Nat
  | 0, _, d => (.exhausted d, 0)
  | fuel + 1, n, d =>
    if isRealSerialUsed (dirNames d) (serialBase name pfx n) then
      bumpProbe (reserveLoop ttl now name pfx ext fuel (n + 1) d)
    else if (dirNames d).contains (lockNameOf name pfx n) then
      bumpProbe (reserveLoop ttl now name pfx ext fuel (n + 1)
        (staleSweep ttl now d (lockNameOf name pfx n)))
    else if isRealSerialUsed (dirNames ((lockNameOf name pfx n, now) :: d))
        (serialBase name pfx n) then
      bumpProbe (reserveLoop ttl now name pfx ext fuel (n + 1)
        (aremove ((lockNameOf name pfx n, now) :: d) (lockNameOf name pfx n)))
    else
      ((.ok (serialBase name pfx n ++ ext) (lockNameOf name pfx n) n
        ((lockNameOf name pfx n, now) :: d)), 1)

/-- `reserveSerialPath` from server.js: probe candidates 0, 1, ... with a
budget of one million (`for (let n = 0; n < 1e6; n++)`). -/
def reserveSerialPath (d : Dir) (name : String) (isVideo : Bool) (ext : String)
    (ttl now : Nat) : ReserveRes × Nat :=
  reserveLoop ttl now name (if isVideo then "VID" else "IMG") ext 1000000 0 d

/-- The chunk file name `${uploadId}_chunk_${index}` (`getChunkPath`). -/
def chunkName (uploadId idx : String) : String :=
  uploadId ++ ("_chunk_") ++ idx

/-- Accumulator of the merge loop: bytes written to the temporary output
file, bytes fed to the SHA-256 accumulator, and the chunk directory as
chunks are consumed and unlinked. -/
structure MergeAcc where
  out : Bytes
  hashed : Bytes
  chunks : List (String × Bytes)
deriving DecidableEq, Repr

/-- Result of `assembleChunksToTemp`: the hex digest (modelled by the full
byte stream fed to the hasher) on success, or the index of the first chunk
found missing.  Either way the accumulator records the final state of the
output file and chunk directory. -/
inductive AssembleRes where
  | success (digest : Bytes) (acc : MergeAcc)
  | missing (i : Nat) (acc : MergeAcc)
deriving DecidableEq, Repr

/-- The merge loop of `assembleChunksToTemp`: for each index in order,
fail if the chunk file is absent, otherwise hash its bytes, append them to
the output file, and unlink the chunk. -/
def assembleLoop (uploadId : String) : Nat → Nat → MergeAcc → AssembleRes
  | 0, _, acc => .success acc.hashed acc
  | rem + 1, i, acc =>
    match alookup acc.chunks (chunkName uploadId (toString i)) with
    | none => .missing i acc
    | some b =>
      assembleLoop uploadId rem (i + 1)
        { out := acc.out ++ b
          hashed := acc.hashed ++ b
          chunks := aremove acc.chunks (chunkName uploadId (toString i)) }

/-- `assembleChunksToTemp` from server.js, over the chunk directory. -/
def assembleChunksToTemp (uploadId : String) (totalChunks : Nat)
    (chunks : List (String × Bytes)) : AssembleRes :=
  assembleLoop uploadId totalChunks 0 { out := [], hashed := [], chunks := chunks }

/-- The ordered concatenation of the chunk bytes for indices
`i, i+1, ..., i+rem-1` as looked up in a fixed chunk directory. -/
def chunkCat (uploadId : String) (chunks : List (String × Bytes)) (i rem : Nat) : Bytes :=
  ((List.range rem).map
    (fun k => (alookup chunks (chunkName uploadId (toString (i + k)))).getD [])).flatten

/-- The chunk directory after unlinking chunks `i, ..., i+rem-1`. -/
def stripFrom (uploadId : String) : Nat → Nat → List (String × Bytes) → List (String × Bytes)
  | _, 0, cs => cs
  | i, rem + 1, cs => stripFrom uploadId (i + 1) rem (aremove cs (chunkName uploadId (toString i)))

/-- A parsed chunk-upload manifest file (`manifests/<uploadId>.json`). -/
structure Manifest where
  uploadId : String
  filename : Option String
  totalChunks : JsNum
  isVideo : Bool
  received : List JsNum
  mtime : Nat
deriving DecidableEq, Repr

/-- One part of a multipart request to `/upload-chunk`. -/
inductive ReqPart where
  | field (name value : String)
  | file (fieldname : String) (content : Bytes)
deriving DecidableEq, Repr

/-- The mutable local variables of the `/upload-chunk` handler. -/
structure ChunkVars where
  authKey : Option String
  uploadId : Option String
  index : Option JsNum
  totalChunks : Option JsNum
  filename : Option String
  isVideo : Bool
  wrotePath : Option String
  wroteTemp : Bool
  sawFile : Bool
deriving DecidableEq, Repr

/-- Initial values of the handler's local variables. -/
def initChunkVars : ChunkVars :=
  { authKey := none, uploadId := none, index := none, totalChunks := none
    filename := none, isVideo := false, wrotePath := none, wroteTemp := false
    sawFile := false }

/-- Server-side state touched by `/upload-chunk`: the chunk directory
(which also holds in-flight staging files) and the manifest directory. -/
structure ChunkState where
  chunkFiles : List (String × Bytes)
  manifests : List (String × Manifest)
deriving DecidableEq, Repr

/-- One step of the `for await (const part of parts)` loop of
`/upload-chunk`: fields assign handler variables; a `chunk` file part is
written directly to its chunk path when `uploadId` and `index` are already
known, and otherwise to a fresh staging name drawn from `tmpNames`. -/
def chunkPartStep (st : ChunkVars × List (String × Bytes) × List String) (p : ReqPart) :
    ChunkVars × List (String × Bytes) × List String :=
  let v := st.1
  let files := st.2.1
  let tmpNames := st.2.2
  match p with
  | .field name value =>
    if name == "authKey" then ({ v with authKey := some (jsTrim value) }, files, tmpNames)
    else if name == "uploadId" then ({ v with uploadId := some (jsTrim value) }, files, tmpNames)
    else if name == "index" then ({ v with index := some (parseIntJs value) }, files, tmpNames)
    else if name == "totalChunks" then
      ({ v with totalChunks := some (parseIntJs value) }, files, tmpNames)
    else if name == "filename" then ({ v with filename := some value }, files, tmpNames)
    else if name == "isVideo" then ({ v with isVideo := jsToLower value == ("true") }, files, tmpNames)
    else (v, files, tmpNames)
  | .file fieldname content =>
    if fieldname == "chunk" then
      let v := { v with sawFile := true }
      if strTruthy v.uploadId && v.index.isSome then
        let p := chunkName (v.uploadId.getD "") (jsNumStr (v.index.getD none))
        ({ v with wrotePath := some p }, aset files p content, tmpNames)
      else
        let p := tmpNames.getD 0 (".inflight.x")
        ({ v with wrotePath := some p, wroteTemp := true },
          aset files p content, tmpNames.drop 1)
    else (v, files, tmpNames)

/-- The whole part-consuming loop of `/upload-chunk`. -/
def chunkScan (tmpNames : List String) (parts : List ReqPart) (files : List (String × Bytes)) :
    ChunkVars × List (String × Bytes) × List String :=
  parts.foldl chunkPartStep (initChunkVars, files, tmpNames)

/-- Responses of the `/upload-chunk` handler. -/
inductive ChunkResp where
  | ok (index : JsNum)
  | invalidAuth
  | missingFields
deriving DecidableEq, Repr

/-- The `/upload-chunk` handler: consume all parts (writing any file part
to disk as it arrives), then validate (403 for an unknown or empty auth
key, 400 for never-assigned fields or no file part), rename a staged file
to its chunk path, and update the manifest, adding the index to
`received` only when it is not already a member. -/
def uploadChunk (users : List (String × String)) (now : Nat) (tmpNames : List String)
    (parts : List ReqPart) (st : ChunkState) : ChunkResp × ChunkState :=
  let scan := chunkScan tmpNames parts st.chunkFiles
  let v := scan.1
  let files := scan.2.1
  if !(strTruthy v.authKey) || (jsUser users (v.authKey.getD "")).isNone then
    (.invalidAuth, { st with chunkFiles := files })
  else if !(strTruthy v.uploadId) || v.index.isNone || v.totalChunks.isNone || !v.sawFile then
    (.missingFields, { st with chunkFiles := files })
  else
    let uid := v.uploadId.getD ""
    let idx := v.index.getD none
    let finalName := chunkName uid (jsNumStr idx)
    let files2 :=
      if v.wroteTemp then
        match v.wrotePath with
        | some wp => aset (aremove files wp) finalName ((alookup files wp).getD [])
        | none => files
      else files
    let m0 : Manifest :=
      { uploadId := uid, filename := v.filename, totalChunks := v.totalChunks.getD none
        isVideo := v.isVideo, received := [], mtime := now }
    let m := (alookup st.manifests uid).getD m0
    let m1 := if m.received.contains idx then m else { m with received := m.received ++ [idx] }
    (.ok idx, { chunkFiles := files2, manifests := aset st.manifests uid { m1 with mtime := now } })

/-- Responses of the `/upload-status` handler. -/
inductive StatusResp where
  | missingId
  | ok (received : List JsNum)
deriving DecidableEq, Repr

/-- The `/upload-status` handler: 400 when the id query parameter is
empty; `{received: []}` when no manifest file exists for the id; otherwise
the manifest's `received` list. -/
def uploadStatus (manifests : List (String × Manifest)) (idq : String) : StatusResp :=
  if idq == "" then .missingId
  else
    match alookup manifests idq with
    | none => .ok []
    | some m => .ok m.received

/-- One record of the append-only upload log.  Non-deduplicated entries,
which carry no `deduped` key in the JSON, are modelled with
`deduped = false`. -/
structure LogEntry where
  authKey : String
  fullName : String
  originalName : String
  savedName : String
  timestamp : Nat
  hash : Bytes
  deduped : Bool
deriving DecidableEq, Repr

/-- The full server state touched by `/upload-manifest` and `/upload`. -/
structure SState where
  chunkFiles : List (String × Bytes)
  manifests : List (String × Manifest)
  tmpFiles : List (String × Bytes)
  dir : Dir
  hashIndex : List (Bytes × String)
  uploadLog : List LogEntry
deriving DecidableEq, Repr

/-- Lookup in the in-memory `hashIndex` map (content hash, modelled by the
hashed byte stream, to saved file name). -/
def hlookup : List (Bytes × String) → Bytes → Option String
  | [], _ => none
  | (k2, v) :: t, k => if k2 == k then some v else hlookup t k

/-- The parsed `manifest` field of an `/upload-manifest` request. -/
structure ManifestReq where
  uploadId : String
  totalChunks : Int
  filename : String
  authKey : String
  isVideo : Bool
deriving DecidableEq, Repr

/-- Responses of the `/upload-manifest` handler. -/
inductive ManifestResp where
  | badRequest
  | forbidden
  | deduped (existing : String)
  | saved (savedAs : String) (sha256 : Bytes)
  | serverError
deriving DecidableEq, Repr

/-- The `/upload-manifest` handler: validate fields and auth key, merge
the chunks into a fresh `.merge.<uuid><ext>` temp file while hashing in
one pass, then either short-circuit on a hash-index hit (unlink temp and
manifest, log a `deduped` entry) or reserve a serial, move the temp file
to its final name, record it, and unlink the manifest.  A mid-merge
failure or probe exhaustion is caught and answered with a 500; nothing is
cleaned up on that path beyond what already happened. -/
def uploadManifest (users : List (String × String)) (now : Nat) (uuid : String)
    (req : Option ManifestReq) (st : SState) : ManifestResp × SState :=
  match req with
  | none => (.badRequest, st)
  | some m =>
    if m.uploadId == "" || m.totalChunks == 0 || m.filename == "" || m.authKey == "" then
      (.badRequest, st)
    else
      match jsUser users m.authKey with
      | none => (.forbidden, st)
      | some user =>
        let ext := extname m.filename
        let tempOut := (".merge.") ++ uuid ++ ext
        match assembleChunksToTemp m.uploadId m.totalChunks.toNat st.chunkFiles with
        | .missing _ acc =>
          (.serverError,
            { st with chunkFiles := acc.chunks, tmpFiles := aset st.tmpFiles tempOut acc.out })
        | .success digest acc =>
          let st1 := { st with chunkFiles := acc.chunks
                               tmpFiles := aset st.tmpFiles tempOut acc.out }
          match hlookup st1.hashIndex digest with
          | some existing =>
            (.deduped existing,
              { st1 with
                  tmpFiles := aremove st1.tmpFiles tempOut
                  manifests := aremove st1.manifests m.uploadId
                  uploadLog := st1.uploadLog ++
                    [{ authKey := m.authKey, fullName := user, originalName := m.filename
                       savedName := existing, timestamp := now, hash := digest
                       deduped := true }] })
          | none =>
            match reserveSerialPath st1.dir user m.isVideo ext 600000 now with
            | (.exhausted d2, _) => (.serverError, { st1 with dir := d2 })
            | (.ok finalPath lockName _ d2, _) =>
              let savedName := finalPath
              (.saved savedName digest,
                { st1 with
                    tmpFiles := aremove st1.tmpFiles tempOut
                    dir := aset (aremove d2 lockName) finalPath now
                    hashIndex := (digest, savedName) :: st1.hashIndex
                    uploadLog := st1.uploadLog ++
                      [{ authKey := m.authKey, fullName := user, originalName := m.filename
                         savedName := savedName, timestamp := now, hash := digest
                         deduped := false }]
                    manifests := aremove st1.manifests m.uploadId })

/-- One part of a multipart request to `/upload` (direct path): a field,
or a file part with its client filename and MIME type. -/
inductive DirectPart where
  | field (name value : String)
  | file (filename mimetype : String) (content : Bytes)
deriving DecidableEq, Repr

/-- A staged direct upload: temp path, digest (modelled by the hashed byte
stream, which the hashing tee feeds with exactly the file bytes),
extension, video flag and original name. -/
structure Staged where
  tmpPath : String
  sha256 : Bytes
  ext : String
  isVideo : Bool
  originalName : String
deriving DecidableEq, Repr

/-- The video extension allowlist of the direct route. -/
def videoExts : List String :=
  [".mp4", ".mov", ".avi", ".mkv", ".webm", ".flv", ".ogv"]

/-- The part-consuming loop of `/upload`: an `authKey` field resolves the
user; every file part is streamed through the hashing tee into a fresh
temp file and staged. -/
def directScan (users : List (String × String)) :
    List DirectPart → List String →
      (Option String × Option String × List Staged × List (String × Bytes)) →
      Option String × Option String × List Staged × List (String × Bytes)
  | [], _, acc => acc
  | .field name value :: rest, tmpNames, (authKey, user, staged, tmpFiles) =>
    if name == "authKey" then
      let k := jsTrim value
      directScan users rest tmpNames (some k, jsUser users k, staged, tmpFiles)
    else directScan users rest tmpNames (authKey, user, staged, tmpFiles)
  | .file filename mimetype content :: rest, tmpNames, (authKey, user, staged, tmpFiles) =>
    let ext := extname filename
    let isVideo := jsStartsWith mimetype ("video/") || videoExts.contains (jsToLower ext)
    let tmpPath := tmpNames.getD 0 (".tmp.x")
    directScan users rest (tmpNames.drop 1)
      (authKey, user,
        staged ++ [{ tmpPath := tmpPath, sha256 := content, ext := ext
                     isVideo := isVideo, originalName := filename }],
        aset tmpFiles tmpPath content)

/-- Responses of the `/upload` handler. -/
inductive DirectResp where
  | forbidden
  | okFiles (files : List String)
  | serverError
deriving DecidableEq, Repr

/-- The per-staged-file loop of `/upload`: dedupe hit unlinks the temp
file and logs a `deduped` entry; miss reserves a serial, finalizes the
file, updates the hash index and logs a normal entry.  Probe exhaustion
throws, answered with a 500 in the route's catch. -/
def directStore (users : List (String × String)) (now : Nat)
    (authKey user : String) :
    List Staged → List String → SState → DirectResp × SState
  | [], savedFiles, st => (.okFiles savedFiles, st)
  | s :: rest, savedFiles, st =>
    match hlookup st.hashIndex s.sha256 with
    | some existing =>
      directStore users now authKey user rest savedFiles
        { st with
            tmpFiles := aremove st.tmpFiles s.tmpPath
            uploadLog := st.uploadLog ++
              [{ authKey := authKey, fullName := user, originalName := s.originalName
                 savedName := existing, timestamp := now, hash := s.sha256
                 deduped := true }] }
    | none =>
      match reserveSerialPath st.dir user s.isVideo s.ext 600000 now with
      | (.exhausted d2, _) => (.serverError, { st with dir := d2 })
      | (.ok finalPath lockName _ d2, _) =>
        directStore users now authKey user rest (savedFiles ++ [finalPath])
          { st with
              tmpFiles := aremove st.tmpFiles s.tmpPath
              dir := aset (aremove d2 lockName) finalPath now
              hashIndex := (s.sha256, finalPath) :: st.hashIndex
              uploadLog := st.uploadLog ++
                [{ authKey := authKey, fullName := user, originalName := s.originalName
                   savedName := finalPath, timestamp := now, hash := s.sha256
                   deduped := false }] }

/-- The `/upload` handler: consume parts (staging every file), reject
with 403 when the auth key is missing or unknown — unlinking all staged
temp files — and otherwise store or dedupe each staged file in order. -/
def uploadDirect (users : List (String × String)) (now : Nat) (tmpNames : List String)
    (parts : List DirectPart) (st : SState) : DirectResp × SState :=
  let scan := directScan users parts tmpNames (none, none, [], st.tmpFiles)
  let authKey := scan.1
  let user := scan.2.1
  let staged := scan.2.2.1
  let st1 := { st with tmpFiles := scan.2.2.2 }
  if !(strTruthy authKey) || user.isNone then
    (.forbidden,
      { st1 with tmpFiles := staged.foldl (fun fs s => aremove fs s.tmpPath) st1.tmpFiles })
  else
    directStore users now (authKey.getD "") (user.getD "") staged [] st1

/-! ### Association-list lemmas -/

theorem alookup_aremove_self {β : Type} (l : List (String × β)) (k : String) :
    alookup (aremove l k) k = none := by
  induction l with
  | nil => rfl
  | cons p t ih =>
    simp only [aremove, List.filter_cons]
    by_cases h : p.1 = k
    · simp only [h, beq_self_eq_true, Bool.not_true, Bool.false_eq_true, if_false]
      simpa [aremove] using ih
    · have hb : (!(p.1 == k)) = true := by simp [h]
      rw [if_pos hb, alookup]
      simp only [beq_iff_eq, h, if_false]
      simpa [aremove] using ih

theorem alookup_aremove_ne {β : Type} (l : List (String × β)) {k k2 : String}
    (h : k2 ≠ k) : alookup (aremove l k) k2 = alookup l k2 := by
  induction l with
  | nil => rfl
  | cons p t ih =>
    simp only [aremove, List.filter_cons]
    by_cases hp : p.1 = k
    · have hpk2 : ¬ p.1 = k2 := by rw [hp]; exact fun hh => h hh.symm
      have hb : (!(p.1 == k)) = false := by simp [hp]
      rw [if_neg (by simp [hb]), alookup]
      simp only [beq_iff_eq, hpk2, if_false]
      simpa [aremove] using ih
    · have hb : (!(p.1 == k)) = true := by simp [hp]
      rw [if_pos hb, alookup, alookup]
      by_cases hq : p.1 = k2
      · simp [hq]
      · simp only [beq_iff_eq, hq, if_false]
        simpa [aremove] using ih

theorem alookup_aset_self {β : Type} (l : List (String × β)) (k : String) (v : β) :
    alookup (aset l k v) k = some v := by
  simp [aset, alookup]

theorem alookup_aset_ne {β : Type} (l : List (String × β)) {k k2 : String} (v : β)
    (h : k2 ≠ k) : alookup (aset l k v) k2 = alookup l k2 := by
  have : ¬ k = k2 := fun hh => h hh.symm
  simp [aset, alookup, beq_iff_eq, this]
  exact alookup_aremove_ne l h

theorem alookup_contains {β : Type} {l : List (String × β)} {k : String} {v : β}
    (h : alookup l k = some v) : (l.map (fun p => p.1)).contains k = true := by
  induction l with
  | nil => simp [alookup] at h
  | cons p t ih =>
    by_cases hp : p.1 = k
    · simp [hp]
    · simp [alookup, beq_iff_eq, hp] at h
      simp [List.contains, beq_iff_eq]
      exact Or.inr (by simpa [List.contains, beq_iff_eq] using ih h)

/-! ### Decimal rendering of naturals is injective -/

/-- Decimal valuation of a digit-character list, used only to invert
`Nat.repr`. -/
def decValAux (a : Nat) : List Char → Nat
  | [] => a
  | c :: cs => decValAux (a * 10 + (c.toNat - 48)) cs

theorem digitChar_toNat : ∀ d : Nat, d < 10 → (Nat.digitChar d).toNat = 48 + d := by decide

theorem decValAux_toDigitsCore :
    ∀ (fuel n : Nat) (acc : List Char), n < fuel →
      decValAux 0 (Nat.toDigitsCore 10 fuel n acc) = decValAux n acc := by
  intro fuel
  induction fuel with
  | zero => intro n acc h; omega
  | succ f ih =>
    intro n acc h
    show decValAux 0 (Nat.toDigitsCore 10 (f + 1) n acc) = decValAux n acc
    rw [Nat.toDigitsCore]
    by_cases h0 : n / 10 = 0
    · have hlt : n < 10 := by omega
      have hd : (Nat.digitChar (n % 10)).toNat = 48 + n % 10 :=
        digitChar_toNat _ (Nat.mod_lt _ (by omega))
      simp only [h0, if_pos]
      show decValAux (0 * 10 + ((Nat.digitChar (n % 10)).toNat - 48)) acc = decValAux n acc
      rw [hd]
      have : n % 10 = n := Nat.mod_eq_of_lt hlt
      simp [this]
    · have hrec : n / 10 < f := by
        have h1 : n / 10 < n := Nat.div_lt_self (by omega) (by omega)
        omega
      simp only [h0, if_neg, ite_false]
      rw [ih _ _ hrec]
      show decValAux (n / 10 * 10 + ((Nat.digitChar (n % 10)).toNat - 48)) acc = decValAux n acc
      rw [digitChar_toNat _ (Nat.mod_lt _ (by omega))]
      have : n / 10 * 10 + (48 + n % 10 - 48) = n := by omega
      rw [this]

theorem decValAux_repr (n : Nat) : decValAux 0 (Nat.repr n).data = n := by
  show decValAux 0 (Nat.toDigitsCore 10 (n + 1) n []) = n
  rw [decValAux_toDigitsCore _ _ _ (Nat.lt_succ_self n)]
  rfl

theorem natToString_inj {m n : Nat} (h : toString m = toString n) : m = n := by
  have h2 : Nat.repr m = Nat.repr n := h
  have hm := decValAux_repr m
  have hn := decValAux_repr n
  rw [h2] at hm
  omega

theorem string_append_cancel_left {a b c : String} (h : a ++ b = a ++ c) : b = c := by
  apply String.ext
  have := congrArg String.data h
  simp only [String.data_append] at this
  exact List.append_cancel_left this

theorem chunkName_inj_nat {u : String} {i j : Nat}
    (h : chunkName u (toString i) = chunkName u (toString j)) : i = j := by
  apply natToString_inj
  exact string_append_cancel_left (a := u ++ ("_chunk_")) (by simpa [chunkName, String.append_assoc] using h)

/-! ### Assembly loop characterization -/

theorem chunkName_ne_of_ne {u : String} {i j : Nat} (h : i ≠ j) :
    chunkName u (toString i) ≠ chunkName u (toString j) :=
  fun hc => h (chunkName_inj_nat hc)

theorem chunkCat_zero (u : String) (cs : List (String × Bytes)) (i : Nat) :
    chunkCat u cs i 0 = [] := rfl

theorem chunkCat_succ (u : String) (cs : List (String × Bytes)) (i rem : Nat) :
    chunkCat u cs i (rem + 1) =
      (alookup cs (chunkName u (toString i))).getD [] ++ chunkCat u cs (i + 1) rem := by
  unfold chunkCat
  rw [List.range_succ_eq_map]
  simp only [List.map_cons, List.map_map, List.flatten_cons, Nat.add_zero]
  congr 1
  apply congrArg
  apply List.map_congr_left
  intro k _
  simp only [Function.comp_apply]
  have harith : i + (k + 1) = i + 1 + k := by omega
  rw [harith]

theorem chunkCat_aremove {u : String} {i j : Nat} (cs : List (String × Bytes)) (rem : Nat)
    (h : j < i) :
    chunkCat u (aremove cs (chunkName u (toString j))) i rem = chunkCat u cs i rem := by
  unfold chunkCat
  congr 1
  apply List.map_congr_left
  intro k _
  rw [alookup_aremove_ne _ (chunkName_ne_of_ne (by omega))]

theorem assembleLoop_complete (u : String) :
    ∀ (rem i : Nat) (acc : MergeAcc),
      (∀ k, k < rem → (alookup acc.chunks (chunkName u (toString (i + k)))).isSome) →
      assembleLoop u rem i acc =
        .success (acc.hashed ++ chunkCat u acc.chunks i rem)
          { out := acc.out ++ chunkCat u acc.chunks i rem
            hashed := acc.hashed ++ chunkCat u acc.chunks i rem
            chunks := stripFrom u i rem acc.chunks } := by
  intro rem
  induction rem with
  | zero =>
    intro i acc _
    simp [assembleLoop, chunkCat_zero, stripFrom]
  | succ r ih =>
    intro i acc h
    have h0 := h 0 (Nat.succ_pos r)
    rw [Nat.add_zero] at h0
    obtain ⟨b, hb⟩ := Option.isSome_iff_exists.mp h0
    rw [assembleLoop, hb]
    set acc2 : MergeAcc :=
      { out := acc.out ++ b
        hashed := acc.hashed ++ b
        chunks := aremove acc.chunks (chunkName u (toString i)) } with hacc2
    have hnext : ∀ k, k < r →
        (alookup acc2.chunks (chunkName u (toString (i + 1 + k)))).isSome := by
      intro k hk
      rw [hacc2]
      show (alookup (aremove acc.chunks (chunkName u (toString i)))
        (chunkName u (toString (i + 1 + k)))).isSome
      rw [alookup_aremove_ne _ (chunkName_ne_of_ne (by omega))]
      have := h (k + 1) (by omega)
      have harith : i + (k + 1) = i + 1 + k := by omega
      rwa [harith] at this
    show assembleLoop u r (i + 1) acc2 = _
    rw [ih (i + 1) acc2 hnext]
    have hcat : chunkCat u acc.chunks i (r + 1) = b ++ chunkCat u acc.chunks (i + 1) r := by
      rw [chunkCat_succ, hb]
      rfl
    have hcat2 : chunkCat u acc2.chunks (i + 1) r = chunkCat u acc.chunks (i + 1) r := by
      rw [hacc2]
      exact chunkCat_aremove acc.chunks r (Nat.lt_succ_self i)
    have hstrip : stripFrom u i (r + 1) acc.chunks = stripFrom u (i + 1) r acc2.chunks := by
      rfl
    rw [hcat2, hcat, hstrip]
    simp [hacc2, List.append_assoc]

theorem assembleLoop_missing (u : String) :
    ∀ (t rem i : Nat) (acc : MergeAcc), t < rem →
      (∀ k, k < t → (alookup acc.chunks (chunkName u (toString (i + k)))).isSome) →
      alookup acc.chunks (chunkName u (toString (i + t))) = none →
      assembleLoop u rem i acc =
        .missing (i + t)
          { out := acc.out ++ chunkCat u acc.chunks i t
            hashed := acc.hashed ++ chunkCat u acc.chunks i t
            chunks := stripFrom u i t acc.chunks } := by
  intro t
  induction t with
  | zero =>
    intro rem i acc hrem _ hmiss
    obtain ⟨r, hr⟩ := Nat.exists_eq_succ_of_ne_zero (n := rem) (by omega)
    subst hr
    rw [Nat.add_zero] at hmiss
    rw [assembleLoop, hmiss]
    simp [chunkCat_zero, stripFrom]
  | succ s ih =>
    intro rem i acc hrem h hmiss
    obtain ⟨r, hr⟩ := Nat.exists_eq_succ_of_ne_zero (n := rem) (by omega)
    subst hr
    have h0 := h 0 (Nat.succ_pos s)
    rw [Nat.add_zero] at h0
    obtain ⟨b, hb⟩ := Option.isSome_iff_exists.mp h0
    rw [assembleLoop, hb]
    set acc2 : MergeAcc :=
      { out := acc.out ++ b
        hashed := acc.hashed ++ b
        chunks := aremove acc.chunks (chunkName u (toString i)) } with hacc2
    have hnext : ∀ k, k < s →
        (alookup acc2.chunks (chunkName u (toString (i + 1 + k)))).isSome := by
      intro k hk
      rw [hacc2]
      show (alookup (aremove acc.chunks (chunkName u (toString i)))
        (chunkName u (toString (i + 1 + k)))).isSome
      rw [alookup_aremove_ne _ (chunkName_ne_of_ne (by omega))]
      have := h (k + 1) (by omega)
      have harith : i + (k + 1) = i + 1 + k := by omega
      rwa [harith] at this
    have hmiss2 : alookup acc2.chunks (chunkName u (toString (i + 1 + s))) = none := by
      rw [hacc2]
      show alookup (aremove acc.chunks (chunkName u (toString i)))
        (chunkName u (toString (i + 1 + s))) = none
      rw [alookup_aremove_ne _ (chunkName_ne_of_ne (by omega))]
      have harith : i + (s + 1) = i + 1 + s := by omega
      rwa [harith] at hmiss
    show assembleLoop u r (i + 1) acc2 = _
    rw [ih r (i + 1) acc2 (by omega) hnext hmiss2]
    have hcat : chunkCat u acc.chunks i (s + 1) = b ++ chunkCat u acc.chunks (i + 1) s := by
      rw [chunkCat_succ, hb]
      rfl
    have hcat2 : chunkCat u acc2.chunks (i + 1) s = chunkCat u acc.chunks (i + 1) s := by
      rw [hacc2]
      exact chunkCat_aremove acc.chunks s (Nat.lt_succ_self i)
    have harith : i + 1 + s = i + (s + 1) := by omega
    rw [hcat2, hcat, harith]
    simp [hacc2, List.append_assoc, stripFrom]

/-! ### Reservation loop lemmas -/

theorem reserveLoop_probes (ttl now : Nat) (name pfx ext : String) :
    ∀ (fuel n : Nat) (d : Dir),
      (reserveLoop ttl now name pfx ext fuel n d).2 ≤ fuel ∧
      ((∃ f l m d2, (reserveLoop ttl now name pfx ext fuel n d).1 = .ok f l m d2) ∨
        (∃ d2, (reserveLoop ttl now name pfx ext fuel n d).1 = .exhausted d2 ∧
          (reserveLoop ttl now name pfx ext fuel n d).2 = fuel)) := by
  intro fuel
  induction fuel with
  | zero =>
    intro n d
    exact ⟨Nat.le_refl 0, Or.inr ⟨d, rfl, rfl⟩⟩
  | succ f ih =>
    intro n d
    rw [reserveLoop]
    by_cases h1 : isRealSerialUsed (dirNames d) (serialBase name pfx n)
    · rw [if_pos h1]
      obtain ⟨hb, hd⟩ := ih (n + 1) d
      refine ⟨by simpa [bumpProbe] using Nat.succ_le_succ hb, ?_⟩
      rcases hd with ⟨f2, l2, m2, d2, hok⟩ | ⟨d2, hex, hp⟩
      · exact Or.inl ⟨f2, l2, m2, d2, by simpa [bumpProbe] using hok⟩
      · exact Or.inr ⟨d2, by simpa [bumpProbe] using hex, by simp [bumpProbe, hp]⟩
    · rw [if_neg h1]
      by_cases h2 : (dirNames d).contains (lockNameOf name pfx n)
      · rw [if_pos h2]
        obtain ⟨hb, hd⟩ := ih (n + 1) (staleSweep ttl now d (lockNameOf name pfx n))
        refine ⟨by simpa [bumpProbe] using Nat.succ_le_succ hb, ?_⟩
        rcases hd with ⟨f2, l2, m2, d2, hok⟩ | ⟨d2, hex, hp⟩
        · exact Or.inl ⟨f2, l2, m2, d2, by simpa [bumpProbe] using hok⟩
        · exact Or.inr ⟨d2, by simpa [bumpProbe] using hex, by simp [bumpProbe, hp]⟩
      · rw [if_neg h2]
        by_cases h3 : isRealSerialUsed (dirNames ((lockNameOf name pfx n, now) :: d))
            (serialBase name pfx n)
        · rw [if_pos h3]
          obtain ⟨hb, hd⟩ :=
            ih (n + 1) (aremove ((lockNameOf name pfx n, now) :: d) (lockNameOf name pfx n))
          refine ⟨by simpa [bumpProbe] using Nat.succ_le_succ hb, ?_⟩
          rcases hd with ⟨f2, l2, m2, d2, hok⟩ | ⟨d2, hex, hp⟩
          · exact Or.inl ⟨f2, l2, m2, d2, by simpa [bumpProbe] using hok⟩
          · exact Or.inr ⟨d2, by simpa [bumpProbe] using hex, by simp [bumpProbe, hp]⟩
        · rw [if_neg h3]
          exact ⟨Nat.succ_le_succ (Nat.zero_le f), Or.inl ⟨_, _, _, _, rfl⟩⟩

theorem reserveLoop_ok_unused (ttl now : Nat) (name pfx ext : String) :
    ∀ (fuel n : Nat) (d : Dir) (f l : String) (m : Nat) (d2 : Dir),
      (reserveLoop ttl now name pfx ext fuel n d).1 = .ok f l m d2 →
      isRealSerialUsed (dirNames d2) (serialBase name pfx m) = false ∧
        f = serialBase name pfx m ++ ext ∧ l = lockNameOf name pfx m := by
  intro fuel
  induction fuel with
  | zero =>
    intro n d f l m d2 h
    exact absurd h (by simp [reserveLoop])
  | succ fl ih =>
    intro n d f l m d2 h
    rw [reserveLoop] at h
    by_cases h1 : isRealSerialUsed (dirNames d) (serialBase name pfx n)
    · rw [if_pos h1] at h
      exact ih (n + 1) d f l m d2 (by simpa [bumpProbe] using h)
    · rw [if_neg h1] at h
      by_cases h2 : (dirNames d).contains (lockNameOf name pfx n)
      · rw [if_pos h2] at h
        exact ih (n + 1) _ f l m d2 (by simpa [bumpProbe] using h)
      · rw [if_neg h2] at h
        by_cases h3 : isRealSerialUsed (dirNames ((lockNameOf name pfx n, now) :: d))
            (serialBase name pfx n)
        · rw [if_pos h3] at h
          exact ih (n + 1) _ f l m d2 (by simpa [bumpProbe] using h)
        · rw [if_neg h3] at h
          obtain ⟨hf, hl, hn, hd⟩ := by
            have := h
            simp only [ReserveRes.ok.injEq] at this
            exact this
          subst hn
          subst hd
          exact ⟨Bool.not_eq_true _ ▸ (by simpa using h3), hf.symm ▸ rfl, hl.symm ▸ rfl⟩

/-! ### Claim theorems -/

/-- C1: when the chunk files for indices `0..totalChunks-1` are all
present, `assembleChunksToTemp` succeeds, the output file contents equal
the ordered concatenation of chunks `0..totalChunks-1`, and the byte
stream fed to the SHA-256 accumulator is that same concatenation, fed
during the single merge pass (so the reported digest is the SHA-256 of
the concatenation, and the merged file is never re-read); moreover any
`saved` response of the finalize route reports exactly that digest. -/
theorem C1_assemble_concat_single_pass (m : ManifestReq) (st : SState)
    (users : List (String × String)) (now : Nat) (uuid : String)
    (hall : ∀ i, i < m.totalChunks.toNat →
      (alookup st.chunkFiles (chunkName m.uploadId (toString i))).isSome) :
    assembleChunksToTemp m.uploadId m.totalChunks.toNat st.chunkFiles =
      .success (chunkCat m.uploadId st.chunkFiles 0 m.totalChunks.toNat)
        { out := chunkCat m.uploadId st.chunkFiles 0 m.totalChunks.toNat
          hashed := chunkCat m.uploadId st.chunkFiles 0 m.totalChunks.toNat
          chunks := stripFrom m.uploadId 0 m.totalChunks.toNat st.chunkFiles } ∧
      (∀ sv dg st2, uploadManifest users now uuid (some m) st = (.saved sv dg, st2) →
        dg = chunkCat m.uploadId st.chunkFiles 0 m.totalChunks.toNat) := by
  have hmain : assembleChunksToTemp m.uploadId m.totalChunks.toNat st.chunkFiles =
      .success (chunkCat m.uploadId st.chunkFiles 0 m.totalChunks.toNat)
        { out := chunkCat m.uploadId st.chunkFiles 0 m.totalChunks.toNat
          hashed := chunkCat m.uploadId st.chunkFiles 0 m.totalChunks.toNat
          chunks := stripFrom m.uploadId 0 m.totalChunks.toNat st.chunkFiles } := by
    unfold assembleChunksToTemp
    have := assembleLoop_complete m.uploadId m.totalChunks.toNat 0
      { out := [], hashed := [], chunks := st.chunkFiles }
      (by intro k hk; simpa using hall k (by simpa using hk))
    simpa using this
  refine ⟨hmain, ?_⟩
  intro sv dg st2 h
  simp only [uploadManifest] at h
  by_cases hv : (m.uploadId == "" || m.totalChunks == 0 || m.filename == "" ||
      m.authKey == "") = true
  · rw [if_pos hv] at h
    exact absurd h (by simp)
  · rw [if_neg hv] at h
    rcases hjs : jsUser users m.authKey with _ | user
    · simp only [hjs] at h
      exact absurd h (by simp)
    · simp only [hjs, hmain] at h
      rcases hhit : hlookup st.hashIndex (chunkCat m.uploadId st.chunkFiles 0 m.totalChunks.toNat) with _ | ex
      · simp only [hhit] at h
        have hpair : reserveSerialPath st.dir user m.isVideo (extname m.filename) 600000 now =
            ((reserveSerialPath st.dir user m.isVideo (extname m.filename) 600000 now).1,
              (reserveSerialPath st.dir user m.isVideo (extname m.filename) 600000 now).2) := rfl
        rw [hpair] at h
        rcases hres : (reserveSerialPath st.dir user m.isVideo (extname m.filename) 600000 now).1 with ⟨f, l, n2, d2⟩ | ⟨d2⟩
        · rw [hres] at h
          simp only [ManifestResp.saved.injEq, Prod.mk.injEq] at h
          exact h.1.2.symm
        · rw [hres] at h
          simp only [] at h
          exact absurd h (by simp)
      · simp only [hhit] at h
        exact absurd h (by simp)

/-- Witness for C1 at a three-chunk upload with bytes `[1]`, `[2, 3]`,
`[4]`: all chunks present, assembly returns the ordered concatenation as
both output and hash input. -/
theorem C1_witness :
    (∀ i, i < (3 : Int).toNat →
      (alookup [((("v_chunk_0") : String), ([1] : Bytes)), (("v_chunk_1"), [2, 3]),
        (("v_chunk_2"), [4])] (chunkName ("v") (toString i))).isSome) ∧
      assembleChunksToTemp ("v") ((3 : Int)).toNat
        [(("v_chunk_0"), [1]), (("v_chunk_1"), [2, 3]), (("v_chunk_2"), [4])] =
        .success (chunkCat ("v")
            [(("v_chunk_0"), [1]), (("v_chunk_1"), [2, 3]), (("v_chunk_2"), [4])] 0 (3 : Int).toNat)
          { out := chunkCat ("v")
              [(("v_chunk_0"), [1]), (("v_chunk_1"), [2, 3]), (("v_chunk_2"), [4])] 0 (3 : Int).toNat
            hashed := chunkCat ("v")
              [(("v_chunk_0"), [1]), (("v_chunk_1"), [2, 3]), (("v_chunk_2"), [4])] 0 (3 : Int).toNat
            chunks := stripFrom ("v") 0 (3 : Int).toNat
              [(("v_chunk_0"), [1]), (("v_chunk_1"), [2, 3]), (("v_chunk_2"), [4])] } :=
  ⟨by decide,
    (C1_assemble_concat_single_pass
      { uploadId := ("v"), totalChunks := 3, filename := ("a.jpg"), authKey := ("k")
        isVideo := false }
      { chunkFiles := [(("v_chunk_0"), [1]), (("v_chunk_1"), [2, 3]), (("v_chunk_2"), [4])]
        manifests := [], tmpFiles := [], dir := [], hashIndex := [], uploadLog := [] }
      [] 0 ("UU") (by decide)).1⟩

/-- C9: `reserveSerialPath` always terminates, probing at most one million
candidate serials; it either returns a reserved path or, having spent the
whole budget of exactly one million probes, fails with the
allocation-exhausted error. -/
theorem C9_reserve_terminates (d : Dir) (name : String) (isVideo : Bool)
    (ext : String) (ttl now : Nat) :
    (reserveSerialPath d name isVideo ext ttl now).2 ≤ 1000000 ∧
      ((∃ f l m d2, (reserveSerialPath d name isVideo ext ttl now).1 = .ok f l m d2) ∨
        (∃ d2, (reserveSerialPath d name isVideo ext ttl now).1 = .exhausted d2 ∧
          (reserveSerialPath d name isVideo ext ttl now).2 = 1000000)) := by
  unfold reserveSerialPath
  exact reserveLoop_probes ttl now name (if isVideo then ("VID") else ("IMG")) ext 1000000 0 d

/-- C10: a status query for an id with no manifest on disk answers
`{received: []}`, indistinguishable from a manifest that exists with an
empty received set, rather than a not-found error. -/
theorem C10_status_no_manifest (manifests : List (String × Manifest)) (idq : String)
    (hid : idq ≠ "") (hnone : alookup manifests idq = none) :
    uploadStatus manifests idq = .ok [] ∧
      uploadStatus manifests idq =
        uploadStatus (aset manifests idq
          { uploadId := idq, filename := none, totalChunks := none, isVideo := false
            received := [], mtime := 0 }) idq := by
  have hbe : (idq == "") = false := by simp [hid]
  constructor
  · simp [uploadStatus, hbe, hnone]
  · simp [uploadStatus, hbe, hnone, alookup_aset_self]

/-- Witness for C10: the id `u` with an empty manifest store. -/
theorem C10_witness :
    (("u") ≠ ("") ∧ alookup ([] : List (String × Manifest)) ("u") = none) ∧
      uploadStatus ([] : List (String × Manifest)) ("u") = .ok [] ∧
        uploadStatus ([] : List (String × Manifest)) ("u") =
          uploadStatus (aset ([] : List (String × Manifest)) ("u")
            { uploadId := ("u"), filename := none, totalChunks := none, isVideo := false
              received := [], mtime := 0 }) ("u") :=
  ⟨⟨by decide, rfl⟩, C10_status_no_manifest [] ("u") (by decide) rfl⟩

/-- C4 counterexample: candidate 0 is free except for a stale lock
(mtime 0, now = TTL + 1).  The claim predicts the stale marker is removed
and candidate 0 is retried, so serial 0 would be returned; the code
removes the marker but still advances, returning serial 1 after probing
two candidates, with the stale lock gone from the returned directory. -/
theorem C4_counterexample :
    reserveSerialPath [(("Alice_IMG-0000.lock"), 0)] ("Alice") false (".jpg") 600000 600001 =
      ((.ok ("Alice_IMG-0001.jpg") ("Alice_IMG-0001.lock") 1
        [(("Alice_IMG-0001.lock"), 600001)]), 2) := by
  decide

/-- C4 amended: when the lock-creation attempt for candidate `n` fails
because the marker exists, a stale marker (older than the TTL) is
forcibly removed, but the allocator advances to candidate `n + 1` in both
the stale and the contended case alike — the freed candidate is only
available to later allocation calls, never retried by this one. -/
theorem C4_amended_stale_lock_advances (ttl now : Nat) (name pfx ext : String)
    (fuel n : Nat) (d : Dir) (mt : Nat)
    (h1 : isRealSerialUsed (dirNames d) (serialBase name pfx n) = false)
    (h2 : alookup d (lockNameOf name pfx n) = some mt) :
    reserveLoop ttl now name pfx ext (fuel + 1) n d =
      bumpProbe (reserveLoop ttl now name pfx ext fuel (n + 1)
        (if ttl < now - mt then aremove d (lockNameOf name pfx n) else d)) := by
  rw [reserveLoop, if_neg (by simp [h1]),
    if_pos (show (dirNames d).contains (lockNameOf name pfx n) = true from alookup_contains h2)]
  unfold staleSweep
  rw [h2]

/-- Witness for the amended C4 at the stale-lock directory of the
counterexample. -/
theorem C4_amended_witness :
    (isRealSerialUsed (dirNames [(("Alice_IMG-0000.lock"), 0)])
        (serialBase ("Alice") ("IMG") 0) = false ∧
      alookup [(("Alice_IMG-0000.lock"), 0)] (lockNameOf ("Alice") ("IMG") 0) = some 0) ∧
      reserveLoop 600000 600001 ("Alice") ("IMG") (".jpg") (5 + 1) 0
          [(("Alice_IMG-0000.lock"), 0)] =
        bumpProbe (reserveLoop 600000 600001 ("Alice") ("IMG") (".jpg") 5 (0 + 1)
          (if 600000 < 600001 - 0 then
            aremove [(("Alice_IMG-0000.lock"), 0)] (lockNameOf ("Alice") ("IMG") 0)
          else [(("Alice_IMG-0000.lock"), 0)])) :=
  ⟨⟨by decide, by decide⟩,
    C4_amended_stale_lock_advances 600000 600001 ("Alice") ("IMG") (".jpg") 5 0
      [(("Alice_IMG-0000.lock"), 0)] 0 (by decide) (by decide)⟩

/-- C8 counterexample: the directory holds the entry `Alice_IMG-00001`,
which is the base name `Alice_IMG-0000` of candidate 0 followed by the
suffix `1` — a suffix that is neither `.lock` nor `.serial` — yet the
allocator returns serial 0, because the used-check only recognizes
suffixes that begin with a dot. -/
theorem C8_counterexample :
    (reserveSerialPath [(("Alice_IMG-00001"), 0)] ("Alice") false (".jpg") 600000 600001).1 =
        .ok ("Alice_IMG-0000.jpg") ("Alice_IMG-0000.lock") 0
          [(("Alice_IMG-0000.lock"), 600001), (("Alice_IMG-00001"), 0)] ∧
      ("Alice_IMG-00001") = serialBase ("Alice") ("IMG") 0 ++ ("1") ∧
      ("1") ≠ (".lock") ∧ ("1") ≠ (".serial") := by
  refine ⟨by decide, by decide, by decide, by decide⟩

/-- C8 amended: whenever the allocator returns serial `m`, the returned
directory (the listing it saw, including its own fresh `.lock` marker)
contains no entry the used-check recognizes for `m`: no entry equal to
the base name `name_PREFIX-mmmm`, and no entry that is the base name
followed by a dot and a non-control suffix (so a serial already used
under one dot-extension is never reassigned under another extension);
entries formed with a suffix not beginning with a dot are, however, not
recognized.  The returned path and lock carry exactly that base name. -/
theorem C8_amended_ok_serial_unused (d : Dir) (name : String) (isVideo : Bool)
    (ext : String) (ttl now : Nat) (f l : String) (m : Nat) (d2 : Dir)
    (h : (reserveSerialPath d name isVideo ext ttl now).1 = .ok f l m d2) :
    isRealSerialUsed (dirNames d2)
        (serialBase name (if isVideo then ("VID") else ("IMG")) m) = false ∧
      f = serialBase name (if isVideo then ("VID") else ("IMG")) m ++ ext ∧
      l = lockNameOf name (if isVideo then ("VID") else ("IMG")) m := by
  exact reserveLoop_ok_unused ttl now name (if isVideo then ("VID") else ("IMG")) ext
    1000000 0 d f l m d2 h

/-- Witness for the amended C8: serial 0 is on disk as `.jpg`, a request
for extension `.png` is answered with serial 1, and the used-check
indeed rejects nothing about serial 1 in the returned directory. -/
theorem C8_amended_witness :
    (reserveSerialPath [(("Alice_IMG-0000.jpg"), 5)] ("Alice") false (".png")
        600000 600001).1 =
      .ok ("Alice_IMG-0001.png") ("Alice_IMG-0001.lock") 1
        [(("Alice_IMG-0001.lock"), 600001), (("Alice_IMG-0000.jpg"), 5)] ∧
      isRealSerialUsed
          (dirNames [(("Alice_IMG-0001.lock"), 600001), (("Alice_IMG-0000.jpg"), 5)])
          (serialBase ("Alice") (if false then ("VID") else ("IMG")) 1) = false ∧
        ("Alice_IMG-0001.png") =
            serialBase ("Alice") (if false then ("VID") else ("IMG")) 1 ++ (".png") ∧
          ("Alice_IMG-0001.lock") =
            lockNameOf ("Alice") (if false then ("VID") else ("IMG")) 1 :=
  ⟨by decide,
    C8_amended_ok_serial_unused [(("Alice_IMG-0000.jpg"), 5)] ("Alice") false (".png")
      600000 600001 ("Alice_IMG-0001.png") ("Alice_IMG-0001.lock") 1
      [(("Alice_IMG-0001.lock"), 600001), (("Alice_IMG-0000.jpg"), 5)] (by decide)⟩

/-- C2 counterexample: (a) with chunk 0 present (`[1, 2]`) and chunk 1
missing out of 2, assembly discovers the missing chunk only mid-merge:
the bytes `[1, 2]` have already been written to the output file and
chunk 0 has already been deleted, and the error carries only the single
index 1, not a list — so the check does not happen before any merged
byte is written; (b) a present but zero-length chunk is accepted and
assembly succeeds, so emptiness is never detected. -/
theorem C2_counterexample :
    assembleChunksToTemp ("u") 2 [(("u_chunk_0"), [1, 2])] =
        .missing 1 { out := [1, 2], hashed := [1, 2], chunks := [] } ∧
      assembleChunksToTemp ("u") 1 [(("u_chunk_0"), [])] =
        .success [] { out := [], hashed := [], chunks := [] } :=
  ⟨by decide, by decide⟩

/-- C2 amended: each chunk's existence (never its size) is checked
immediately before that chunk is merged, not up front: when `t` is the
first missing index, assembly aborts with an error naming only `t`,
after chunks `0..t-1` have already been streamed into the output file
(and into the hash accumulator) and deleted from the chunk directory;
empty chunks pass the check. -/
theorem C2_amended_missing_mid_merge (u : String) (total : Nat)
    (cs : List (String × Bytes)) (t : Nat) (hlt : t < total)
    (hpre : ∀ k, k < t → (alookup cs (chunkName u (toString k))).isSome)
    (hmiss : alookup cs (chunkName u (toString t)) = none) :
    assembleChunksToTemp u total cs =
      .missing t
        { out := chunkCat u cs 0 t
          hashed := chunkCat u cs 0 t
          chunks := stripFrom u 0 t cs } := by
  unfold assembleChunksToTemp
  have := assembleLoop_missing u t total 0 { out := [], hashed := [], chunks := cs } hlt
    (by intro k hk; simpa using hpre k hk) (by simpa using hmiss)
  simpa using this

/-- Witness for the amended C2 at the counterexample's two-chunk store. -/
theorem C2_amended_witness :
    ((1 : Nat) < 2 ∧
      (∀ k, k < 1 →
        (alookup [(("u_chunk_0"), ([1, 2] : Bytes))] (chunkName ("u") (toString k))).isSome) ∧
      alookup [(("u_chunk_0"), ([1, 2] : Bytes))] (chunkName ("u") (toString 1)) = none) ∧
      assembleChunksToTemp ("u") 2 [(("u_chunk_0"), [1, 2])] =
        .missing 1
          { out := chunkCat ("u") [(("u_chunk_0"), [1, 2])] 0 1
            hashed := chunkCat ("u") [(("u_chunk_0"), [1, 2])] 0 1
            chunks := stripFrom ("u") 0 1 [(("u_chunk_0"), [1, 2])] } :=
  ⟨⟨by decide, by decide, by decide⟩,
    C2_amended_missing_mid_merge ("u") 2 [(("u_chunk_0"), [1, 2])] 1 (by decide)
      (by decide) (by decide)⟩

/-- C3 counterexample: one finalize request over a store holding chunk 0
(`[7]`) of 2 with its manifest.  The merge fails at chunk 1, but in the
resulting state the partial output file `.merge.UU.jpg` still exists in
the temp directory with the merged bytes `[7]` (it is not discarded:
`out.destroy()` closes the stream without unlinking, and the catch
handler removes nothing), while chunk 0 — which existed before the
attempt — has been deleted.  Only the manifest survives unchanged. -/
theorem C3_counterexample :
    uploadManifest [(("k"), ("Alice"))] 9 ("UU")
        (some
          { uploadId := ("u"), totalChunks := 2, filename := ("a.jpg"),
            authKey := ("k"), isVideo := false })
        { chunkFiles := [(("u_chunk_0"), [7])],
          manifests := [(("u"),
            { uploadId := ("u"), filename := some ("a.jpg"), totalChunks := some 2,
              isVideo := false, received := [some 0, some 1], mtime := 3 })],
          tmpFiles := [], dir := [], hashIndex := [], uploadLog := [] } =
      (.serverError,
        { chunkFiles := [],
          manifests := [(("u"),
            { uploadId := ("u"), filename := some ("a.jpg"), totalChunks := some 2,
              isVideo := false, received := [some 0, some 1], mtime := 3 })],
          tmpFiles := [((".merge.UU.jpg"), [7])], dir := [], hashIndex := [],
          uploadLog := [] }) ∧
      alookup [((".merge.UU.jpg"), ([7] : Bytes))] (".merge.UU.jpg") = some [7] ∧
      alookup ([] : List (String × Bytes)) ("u_chunk_0") = none :=
  ⟨by decide, by decide, by decide⟩

/-- C3 amended: when the merge fails at the first missing index `j`, the
route answers 500 and the state keeps the partial output file at its
temporary name (holding the bytes of chunks `0..j-1`; it is reclaimed
only later by the janitor TTL sweep), the chunks consumed before the
failure are gone, and the remaining chunks and the manifest are
untouched. -/
theorem C3_amended_mid_merge_failure (users : List (String × String)) (now : Nat)
    (uuid : String) (m : ManifestReq) (st : SState) (user : String) (j : Nat)
    (acc : MergeAcc)
    (hu : m.uploadId ≠ "") (ht : m.totalChunks ≠ 0) (hf : m.filename ≠ "")
    (ha : m.authKey ≠ "") (huser : jsUser users m.authKey = some user)
    (hasm : assembleChunksToTemp m.uploadId m.totalChunks.toNat st.chunkFiles =
      .missing j acc) :
    uploadManifest users now uuid (some m) st =
      (.serverError,
        { st with
            chunkFiles := acc.chunks
            tmpFiles := aset st.tmpFiles ((".merge.") ++ uuid ++ extname m.filename)
              acc.out }) := by
  have hv : (m.uploadId == "" || m.totalChunks == 0 || m.filename == "" ||
      m.authKey == "") = false := by
    simp [hu, ht, hf, ha]
  simp only [uploadManifest]
  rw [if_neg (by simp [hv])]
  simp only [huser, hasm]

/-- Witness for the amended C3 at the counterexample's state. -/
theorem C3_amended_witness :
    ((("u") : String) ≠ ("") ∧ ((2 : Int)) ≠ 0 ∧ (("a.jpg") : String) ≠ ("") ∧
      (("k") : String) ≠ ("") ∧
      jsUser [(("k"), ("Alice"))] ("k") = some ("Alice") ∧
      assembleChunksToTemp ("u") ((2 : Int)).toNat [(("u_chunk_0"), [7])] =
        .missing 1 { out := [7], hashed := [7], chunks := [] }) ∧
      uploadManifest [(("k"), ("Alice"))] 9 ("UU")
          (some
            { uploadId := ("u"), totalChunks := 2, filename := ("a.jpg"),
              authKey := ("k"), isVideo := false })
          { chunkFiles := [(("u_chunk_0"), [7])],
            manifests := [], tmpFiles := [(("old"), [9])], dir := [], hashIndex := [],
            uploadLog := [] } =
        (.serverError,
          { chunkFiles := ([] : List (String × Bytes)),
            manifests := [],
            tmpFiles := aset [(("old"), [9])] ((".merge.") ++ ("UU") ++ extname ("a.jpg")) [7],
            dir := [], hashIndex := [], uploadLog := [] }) :=
  ⟨⟨by decide, by decide, by decide, by decide, by decide, by decide⟩,
    C3_amended_mid_merge_failure [(("k"), ("Alice"))] 9 ("UU")
      { uploadId := ("u"), totalChunks := 2, filename := ("a.jpg"), authKey := ("k"),
        isVideo := false }
      { chunkFiles := [(("u_chunk_0"), [7])], manifests := [], tmpFiles := [(("old"), [9])],
        dir := [], hashIndex := [], uploadLog := [] }
      ("Alice") 1 { out := [7], hashed := [7], chunks := [] }
      (by decide) (by decide) (by decide) (by decide) (by decide) (by decide)⟩

/-- C5 counterexample: (a) a chunk submission carrying `uploadId`,
`index`, `totalChunks` and the payload but no `authKey` is rejected with
403 — yet only after the payload `[7]` has been written to the chunk
path `u_chunk_0`, which the rejected request leaves on disk, so the
rejection is not pre-write; (b) a submission whose `index` field is the
malformed numeral `abc` (NaN) is not rejected at all: it is answered
`ok`, the payload is stored under `u_chunk_NaN`, and NaN is pushed into
the manifest's received list. -/
theorem C5_counterexample :
    uploadChunk [(("k"), ("Alice"))] 9 [(".in1")]
        [.field ("uploadId") ("u"), .field ("index") ("0"),
          .field ("totalChunks") ("2"), .file ("chunk") [7]]
        { chunkFiles := [], manifests := [] } =
      (.invalidAuth, { chunkFiles := [(("u_chunk_0"), [7])], manifests := [] }) ∧
      uploadChunk [(("k"), ("Alice"))] 9 [(".in1")]
          [.field ("authKey") ("k"), .field ("uploadId") ("u"), .field ("index") ("abc"),
            .field ("totalChunks") ("2"), .file ("chunk") [7]]
          { chunkFiles := [], manifests := [] } =
        (.ok none,
          { chunkFiles := [(("u_chunk_NaN"), [7])],
            manifests := [(("u"),
              { uploadId := ("u"), filename := none, totalChunks := some 2,
                isVideo := false, received := [none], mtime := 9 })] }) :=
  ⟨by decide, by decide⟩

/-- C5 amended: validation runs only after the whole multipart body has
been consumed, so a submission whose owner token is absent or unknown is
rejected with 403 while every file part it carried has already been
written (to its chunk path or a staging name) and is left on disk; the
manifest store, however, is never touched by the rejected request. -/
theorem C5_amended_reject_after_write (users : List (String × String)) (now : Nat)
    (tmpNames : List String) (parts : List ReqPart) (st : ChunkState)
    (h : strTruthy (chunkScan tmpNames parts st.chunkFiles).1.authKey = false ∨
      jsUser users (((chunkScan tmpNames parts st.chunkFiles).1.authKey).getD "") = none) :
    uploadChunk users now tmpNames parts st =
      (.invalidAuth,
        { st with chunkFiles := (chunkScan tmpNames parts st.chunkFiles).2.1 }) ∧
      (uploadChunk users now tmpNames parts st).2.manifests = st.manifests := by
  have hcond : (!(strTruthy (chunkScan tmpNames parts st.chunkFiles).1.authKey) ||
      (jsUser users (((chunkScan tmpNames parts st.chunkFiles).1.authKey).getD "")).isNone)
      = true := by
    rcases h with h | h
    · simp [h]
    · simp [h]
  have hmain : uploadChunk users now tmpNames parts st =
      (.invalidAuth,
        { st with chunkFiles := (chunkScan tmpNames parts st.chunkFiles).2.1 }) := by
    simp only [uploadChunk]
    rw [if_pos hcond]
  exact ⟨hmain, by rw [hmain]⟩

/-- Witness for the amended C5: the counterexample's token-free request
next to a pre-existing chunk store. -/
theorem C5_amended_witness :
    (strTruthy (chunkScan [(".in1")]
        [.field ("uploadId") ("u"), .field ("index") ("0"), .file ("chunk") [7]]
        [(("w_chunk_0"), [5])]).1.authKey = false ∨
      jsUser [(("k"), ("Alice"))]
        (((chunkScan [(".in1")]
          [.field ("uploadId") ("u"), .field ("index") ("0"), .file ("chunk") [7]]
          [(("w_chunk_0"), [5])]).1.authKey).getD "") = none) ∧
      uploadChunk [(("k"), ("Alice"))] 9 [(".in1")]
          [.field ("uploadId") ("u"), .field ("index") ("0"), .file ("chunk") [7]]
          { chunkFiles := [(("w_chunk_0"), [5])], manifests := [] } =
        (.invalidAuth,
          { chunkFiles := (chunkScan [(".in1")]
              [.field ("uploadId") ("u"), .field ("index") ("0"), .file ("chunk") [7]]
              [(("w_chunk_0"), [5])]).2.1,
            manifests := [] }) ∧
        (uploadChunk [(("k"), ("Alice"))] 9 [(".in1")]
          [.field ("uploadId") ("u"), .field ("index") ("0"), .file ("chunk") [7]]
          { chunkFiles := [(("w_chunk_0"), [5])], manifests := [] }).2.manifests = [] :=
  ⟨Or.inl (by decide),
    C5_amended_reject_after_write [(("k"), ("Alice"))] 9 [(".in1")]
      [.field ("uploadId") ("u"), .field ("index") ("0"), .file ("chunk") [7]]
      { chunkFiles := [(("w_chunk_0"), [5])], manifests := [] } (Or.inl (by decide))⟩

/-- C7: resubmitting an index that is already in the manifest's received
set is idempotent: the chunk file's bytes are overwritten with the new
payload, and the received list is unchanged (no duplicate is pushed; only
the manifest's mtime moves). -/
theorem C7_resubmit_idempotent (users : List (String × String)) (now : Nat)
    (tmpNames : List String) (st : ChunkState) (k u istr tstr : String) (b : Bytes)
    (fn : String) (idx tn : Int) (mf : Manifest)
    (hk : jsTrim k ≠ "")
    (huser : jsUser users (jsTrim k) = some fn)
    (hu : jsTrim u ≠ "")
    (hidx : parseIntJs istr = some idx)
    (htn : parseIntJs tstr = some tn)
    (hmf : alookup st.manifests (jsTrim u) = some mf)
    (hrec : mf.received.contains (some idx) = true) :
    uploadChunk users now tmpNames
        [.field ("authKey") k, .field ("uploadId") u, .field ("index") istr,
          .field ("totalChunks") tstr, .file ("chunk") b] st =
      (.ok (some idx),
        { chunkFiles := aset st.chunkFiles (chunkName (jsTrim u) (toString idx)) b
          manifests := aset st.manifests (jsTrim u) { mf with mtime := now } }) := by
  have hmem : (some idx) ∈ mf.received := by simpa using hrec
  simp only [uploadChunk, chunkScan, List.foldl, chunkPartStep, initChunkVars,
    hidx, htn, huser, hmf, hrec, strTruthy, jsNumStr]
  simp [hu, hk, huser, hmf, hrec, hmem]

/-- Witness for C7: index 1 is already received; resubmitting it with new
bytes `[7, 8]` overwrites `u_chunk_1` and leaves `received` as it was. -/
theorem C7_witness :
    (jsTrim ("k") ≠ ("") ∧
      jsUser [(("k"), ("Alice"))] (jsTrim ("k")) = some ("Alice") ∧
      jsTrim ("u") ≠ ("") ∧
      parseIntJs ("1") = some 1 ∧
      parseIntJs ("2") = some 2 ∧
      alookup [(("u"),
        ({ uploadId := ("u"), filename := some ("a.jpg"), totalChunks := some 2,
           isVideo := false, received := [some 0, some 1], mtime := 3 } : Manifest))]
        (jsTrim ("u")) = some
          { uploadId := ("u"), filename := some ("a.jpg"), totalChunks := some 2,
            isVideo := false, received := [some 0, some 1], mtime := 3 } ∧
      (({ uploadId := ("u"), filename := some ("a.jpg"), totalChunks := some 2,
          isVideo := false, received := [some 0, some 1], mtime := 3 } : Manifest)).received.contains
        (some 1) = true) ∧
      uploadChunk [(("k"), ("Alice"))] 9 []
          [.field ("authKey") ("k"), .field ("uploadId") ("u"), .field ("index") ("1"),
            .field ("totalChunks") ("2"), .file ("chunk") [7, 8]]
          { chunkFiles := [(("u_chunk_1"), [1])],
            manifests := [(("u"),
              { uploadId := ("u"), filename := some ("a.jpg"), totalChunks := some 2,
                isVideo := false, received := [some 0, some 1], mtime := 3 })] } =
        (.ok (some 1),
          { chunkFiles := aset [(("u_chunk_1"), [1])]
              (chunkName (jsTrim ("u")) (toString (1 : Int))) [7, 8],
            manifests := aset
              [(("u"),
                ({ uploadId := ("u"), filename := some ("a.jpg"), totalChunks := some 2,
                   isVideo := false, received := [some 0, some 1], mtime := 3 } : Manifest))]
              (jsTrim ("u"))
              { uploadId := ("u"), filename := some ("a.jpg"), totalChunks := some 2,
                isVideo := false, received := [some 0, some 1], mtime := 9 } }) :=
  ⟨⟨by decide, by decide, by decide, by decide, by decide, by decide, by decide⟩,
    C7_resubmit_idempotent [(("k"), ("Alice"))] 9 []
      { chunkFiles := [(("u_chunk_1"), [1])],
        manifests := [(("u"),
          { uploadId := ("u"), filename := some ("a.jpg"), totalChunks := some 2,
            isVideo := false, received := [some 0, some 1], mtime := 3 })] }
      ("k") ("u") ("1") ("2") [7, 8] ("Alice") 1 2
      { uploadId := ("u"), filename := some ("a.jpg"), totalChunks := some 2,
        isVideo := false, received := [some 0, some 1], mtime := 3 }
      (by decide) (by decide) (by decide) (by decide) (by decide) (by decide) (by decide)⟩

/-- C6: on a hash-index hit — for the chunked finalize route and for the
direct route alike, and regardless of which owner stored the original —
no new file is stored and no serial is allocated (the upload directory,
where both final files and `.lock` reservations live, is unchanged, as is
the hash index), the staged temp bytes are deleted, and a log entry with
`deduped = true` referencing the existing saved name is appended. -/
theorem C6_dedupe_no_store (users usersD : List (String × String)) (now nowD : Nat)
    (uuid : String) (m : ManifestReq) (st stD : SState)
    (user existing : String) (kD userD existingD fnD mtD tD : String) (bD : Bytes)
    (hu : m.uploadId ≠ "") (ht : m.totalChunks ≠ 0) (hf : m.filename ≠ "")
    (ha : m.authKey ≠ "")
    (huser : jsUser users m.authKey = some user)
    (hall : ∀ i, i < m.totalChunks.toNat →
      (alookup st.chunkFiles (chunkName m.uploadId (toString i))).isSome)
    (hhit : hlookup st.hashIndex
      (chunkCat m.uploadId st.chunkFiles 0 m.totalChunks.toNat) = some existing)
    (hkD : jsTrim kD ≠ "")
    (huserD : jsUser usersD (jsTrim kD) = some userD)
    (hhitD : hlookup stD.hashIndex bD = some existingD) :
    ((uploadManifest users now uuid (some m) st).1 = .deduped existing ∧
      (uploadManifest users now uuid (some m) st).2.dir = st.dir ∧
      (uploadManifest users now uuid (some m) st).2.hashIndex = st.hashIndex ∧
      (uploadManifest users now uuid (some m) st).2.uploadLog = st.uploadLog ++
        [{ authKey := m.authKey, fullName := user, originalName := m.filename
           savedName := existing, timestamp := now
           hash := chunkCat m.uploadId st.chunkFiles 0 m.totalChunks.toNat
           deduped := true }] ∧
      alookup (uploadManifest users now uuid (some m) st).2.tmpFiles
        ((".merge.") ++ uuid ++ extname m.filename) = none) ∧
    ((uploadDirect usersD nowD [tD] [.field ("authKey") kD, .file fnD mtD bD] stD).1 =
        .okFiles [] ∧
      (uploadDirect usersD nowD [tD] [.field ("authKey") kD, .file fnD mtD bD] stD).2.dir =
        stD.dir ∧
      (uploadDirect usersD nowD [tD]
        [.field ("authKey") kD, .file fnD mtD bD] stD).2.hashIndex = stD.hashIndex ∧
      (uploadDirect usersD nowD [tD]
        [.field ("authKey") kD, .file fnD mtD bD] stD).2.uploadLog = stD.uploadLog ++
        [{ authKey := jsTrim kD, fullName := userD, originalName := fnD
           savedName := existingD, timestamp := nowD, hash := bD, deduped := true }] ∧
      alookup (uploadDirect usersD nowD [tD]
        [.field ("authKey") kD, .file fnD mtD bD] stD).2.tmpFiles tD = none) := by
  have hmain : assembleChunksToTemp m.uploadId m.totalChunks.toNat st.chunkFiles =
      .success (chunkCat m.uploadId st.chunkFiles 0 m.totalChunks.toNat)
        { out := chunkCat m.uploadId st.chunkFiles 0 m.totalChunks.toNat
          hashed := chunkCat m.uploadId st.chunkFiles 0 m.totalChunks.toNat
          chunks := stripFrom m.uploadId 0 m.totalChunks.toNat st.chunkFiles } := by
    unfold assembleChunksToTemp
    have := assembleLoop_complete m.uploadId m.totalChunks.toNat 0
      { out := [], hashed := [], chunks := st.chunkFiles }
      (by intro kk hk; simpa using hall kk (by simpa using hk))
    simpa using this
  have hEq : uploadManifest users now uuid (some m) st =
      (.deduped existing,
        { chunkFiles := stripFrom m.uploadId 0 m.totalChunks.toNat st.chunkFiles
          manifests := aremove st.manifests m.uploadId
          tmpFiles := aremove
            (aset st.tmpFiles ((".merge.") ++ uuid ++ extname m.filename)
              (chunkCat m.uploadId st.chunkFiles 0 m.totalChunks.toNat))
            ((".merge.") ++ uuid ++ extname m.filename)
          dir := st.dir
          hashIndex := st.hashIndex
          uploadLog := st.uploadLog ++
            [{ authKey := m.authKey, fullName := user, originalName := m.filename
               savedName := existing, timestamp := now
               hash := chunkCat m.uploadId st.chunkFiles 0 m.totalChunks.toNat
               deduped := true }] }) := by
    simp only [uploadManifest]
    rw [if_neg (by simp [hu, ht, hf, ha])]
    simp only [huser, hmain, hhit]
  have hEqD : uploadDirect usersD nowD [tD] [.field ("authKey") kD, .file fnD mtD bD] stD =
      (.okFiles [],
        { chunkFiles := stD.chunkFiles
          manifests := stD.manifests
          tmpFiles := aremove (aset stD.tmpFiles tD bD) tD
          dir := stD.dir
          hashIndex := stD.hashIndex
          uploadLog := stD.uploadLog ++
            [{ authKey := jsTrim kD, fullName := userD, originalName := fnD
               savedName := existingD, timestamp := nowD, hash := bD
               deduped := true }] }) := by
    simp only [uploadDirect, directScan, huserD, strTruthy]
    rw [if_neg (by simp [hkD])]
    simp only [directStore, hhitD]
    simp
  constructor
  · rw [hEq]
    exact ⟨rfl, rfl, rfl, rfl, alookup_aremove_self _ _⟩
  · rw [hEqD]
    exact ⟨rfl, rfl, rfl, rfl, alookup_aremove_self _ _⟩

/-- Witness for C6: a one-chunk finalize whose content `[7, 8]` is
already indexed under `Bob_IMG-0000.jpg` (stored by a different owner),
and a direct upload whose content `[1]` is already indexed under
`X_IMG-0000.png`. -/
theorem C6_witness :
    ((("u") : String) ≠ ("") ∧ ((1 : Int)) ≠ 0 ∧ (("a.jpg") : String) ≠ ("") ∧
      (("k") : String) ≠ ("") ∧
      jsUser [(("k"), ("Alice"))] ("k") = some ("Alice") ∧
      (∀ i, i < ((1 : Int)).toNat →
        (alookup [(("u_chunk_0"), ([7, 8] : Bytes))] (chunkName ("u") (toString i))).isSome) ∧
      hlookup [(([7, 8] : Bytes), ("Bob_IMG-0000.jpg"))]
        (chunkCat ("u") [(("u_chunk_0"), [7, 8])] 0 ((1 : Int)).toNat) =
          some ("Bob_IMG-0000.jpg") ∧
      jsTrim ("kd") ≠ ("") ∧
      jsUser [(("kd"), ("Dana"))] (jsTrim ("kd")) = some ("Dana") ∧
      hlookup [(([1] : Bytes), ("X_IMG-0000.png"))] ([1] : Bytes) = some ("X_IMG-0000.png")) ∧
    (((uploadManifest [(("k"), ("Alice"))] 9 ("U")
        (some { uploadId := ("u"), totalChunks := 1, filename := ("a.jpg"),
                authKey := ("k"), isVideo := false })
        { chunkFiles := [(("u_chunk_0"), [7, 8])], manifests := [], tmpFiles := [],
          dir := [], hashIndex := [(([7, 8] : Bytes), ("Bob_IMG-0000.jpg"))],
          uploadLog := [] }).1 = .deduped ("Bob_IMG-0000.jpg") ∧
      (uploadManifest [(("k"), ("Alice"))] 9 ("U")
        (some { uploadId := ("u"), totalChunks := 1, filename := ("a.jpg"),
                authKey := ("k"), isVideo := false })
        { chunkFiles := [(("u_chunk_0"), [7, 8])], manifests := [], tmpFiles := [],
          dir := [], hashIndex := [(([7, 8] : Bytes), ("Bob_IMG-0000.jpg"))],
          uploadLog := [] }).2.dir = [] ∧
      (uploadManifest [(("k"), ("Alice"))] 9 ("U")
        (some { uploadId := ("u"), totalChunks := 1, filename := ("a.jpg"),
                authKey := ("k"), isVideo := false })
        { chunkFiles := [(("u_chunk_0"), [7, 8])], manifests := [], tmpFiles := [],
          dir := [], hashIndex := [(([7, 8] : Bytes), ("Bob_IMG-0000.jpg"))],
          uploadLog := [] }).2.hashIndex = [(([7, 8] : Bytes), ("Bob_IMG-0000.jpg"))] ∧
      (uploadManifest [(("k"), ("Alice"))] 9 ("U")
        (some { uploadId := ("u"), totalChunks := 1, filename := ("a.jpg"),
                authKey := ("k"), isVideo := false })
        { chunkFiles := [(("u_chunk_0"), [7, 8])], manifests := [], tmpFiles := [],
          dir := [], hashIndex := [(([7, 8] : Bytes), ("Bob_IMG-0000.jpg"))],
          uploadLog := [] }).2.uploadLog = [] ++
        [{ authKey := ("k"), fullName := ("Alice"), originalName := ("a.jpg"),
           savedName := ("Bob_IMG-0000.jpg"), timestamp := 9,
           hash := chunkCat ("u") [(("u_chunk_0"), [7, 8])] 0 ((1 : Int)).toNat,
           deduped := true }] ∧
      alookup (uploadManifest [(("k"), ("Alice"))] 9 ("U")
        (some { uploadId := ("u"), totalChunks := 1, filename := ("a.jpg"),
                authKey := ("k"), isVideo := false })
        { chunkFiles := [(("u_chunk_0"), [7, 8])], manifests := [], tmpFiles := [],
          dir := [], hashIndex := [(([7, 8] : Bytes), ("Bob_IMG-0000.jpg"))],
          uploadLog := [] }).2.tmpFiles
        ((".merge.") ++ ("U") ++ extname ("a.jpg")) = none) ∧
    ((uploadDirect [(("kd"), ("Dana"))] 5 [(".t1")]
        [.field ("authKey") ("kd"), .file ("x.png") ("image/png") [1]]
        { chunkFiles := [], manifests := [], tmpFiles := [], dir := [],
          hashIndex := [(([1] : Bytes), ("X_IMG-0000.png"))], uploadLog := [] }).1 =
          .okFiles [] ∧
      (uploadDirect [(("kd"), ("Dana"))] 5 [(".t1")]
        [.field ("authKey") ("kd"), .file ("x.png") ("image/png") [1]]
        { chunkFiles := [], manifests := [], tmpFiles := [], dir := [],
          hashIndex := [(([1] : Bytes), ("X_IMG-0000.png"))], uploadLog := [] }).2.dir = [] ∧
      (uploadDirect [(("kd"), ("Dana"))] 5 [(".t1")]
        [.field ("authKey") ("kd"), .file ("x.png") ("image/png") [1]]
        { chunkFiles := [], manifests := [], tmpFiles := [], dir := [],
          hashIndex := [(([1] : Bytes), ("X_IMG-0000.png"))],
          uploadLog := [] }).2.hashIndex = [(([1] : Bytes), ("X_IMG-0000.png"))] ∧
      (uploadDirect [(("kd"), ("Dana"))] 5 [(".t1")]
        [.field ("authKey") ("kd"), .file ("x.png") ("image/png") [1]]
        { chunkFiles := [], manifests := [], tmpFiles := [], dir := [],
          hashIndex := [(([1] : Bytes), ("X_IMG-0000.png"))],
          uploadLog := [] }).2.uploadLog = [] ++
        [{ authKey := jsTrim ("kd"), fullName := ("Dana"), originalName := ("x.png"),
           savedName := ("X_IMG-0000.png"), timestamp := 5, hash := ([1] : Bytes),
           deduped := true }] ∧
      alookup (uploadDirect [(("kd"), ("Dana"))] 5 [(".t1")]
        [.field ("authKey") ("kd"), .file ("x.png") ("image/png") [1]]
        { chunkFiles := [], manifests := [], tmpFiles := [], dir := [],
          hashIndex := [(([1] : Bytes), ("X_IMG-0000.png"))],
          uploadLog := [] }).2.tmpFiles (".t1") = none)) :=
  ⟨⟨by decide, by decide, by decide, by decide, by decide, by decide, by decide,
      by decide, by decide, by decide⟩,
    C6_dedupe_no_store [(("k"), ("Alice"))] [(("kd"), ("Dana"))] 9 5 ("U")
      { uploadId := ("u"), totalChunks := 1, filename := ("a.jpg"), authKey := ("k"),
        isVideo := false }
      { chunkFiles := [(("u_chunk_0"), [7, 8])], manifests := [], tmpFiles := [],
        dir := [], hashIndex := [(([7, 8] : Bytes), ("Bob_IMG-0000.jpg"))],
        uploadLog := [] }
      { chunkFiles := [], manifests := [], tmpFiles := [], dir := [],
        hashIndex := [(([1] : Bytes), ("X_IMG-0000.png"))], uploadLog := [] }
      ("Alice") ("Bob_IMG-0000.jpg") ("kd") ("Dana") ("X_IMG-0000.png") ("x.png")
      ("image/png") (".t1") [1]
      (by decide) (by decide) (by decide) (by decide) (by decide) (by decide)
      (by decide) (by decide) (by decide) (by decide)⟩
